import Mathlib

/-!
# sspfd: cycle-accurate latency sampler

Shallow embedding of `sspfd.h` (capture macros, `getticks`, `SSPFDPN`) and of
the driver `sspfd_test.c` (`main`), followed by the properties proved of them.

Conventions of the embedding:
* `ticks` is `uint64_t`: a `Nat`, every arithmetic result reduced `% 2 ^ 64`;
* the globals `sspfd_store`, `_sspfd_s`, `sspfd_correction` are the fields of
  `SspfdState`; the rows of `sspfd_store` and the scratch array `_sspfd_s` are
  distinct objects, so a cell is named by its indices;
* the hardware cycle counter is an input: every `getticks()` call site takes
  the value read there as an argument;
* calls whose body is outside `sspfd.h` and `sspfd_test.c` (libc, and the
  functions only declared in `sspfd.h`) are recorded as events of a trace.
-/

namespace Sspfd

/-! ## `sspfd.h`: ticks and `getticks` -/

/-- Unsigned 64-bit subtraction `a - b` on `ticks` (`typedef uint64_t ticks`,
sspfd.h:45). -/
def ticks_sub (a b : Nat) : Nat :=
  (a % 2 ^ 64 + 2 ^ 64 - b % 2 ^ 64) % 2 ^ 64

/-- The x86_64 `getticks` (sspfd.h:57-63): `rdtsc` leaves the low half of the
counter in `lo` and the high half in `hi` (both `unsigned`, 32 bits); the result
is `((unsigned long long) lo) | (((unsigned long long) hi) << 32)`. -/
def getticks (lo hi : Nat) : Nat :=
  lo ||| ((hi <<< 32) % 2 ^ 64)

/-! ## `sspfd.h`: the sample store and the capture macros -/

/-- The three globals declared at sspfd.h:133-135. -/
structure SspfdState where
  /-- The samples: `sspfd_store[store][entry]`. -/
  sspfd_store : Nat → Nat → Nat
  /-- The scratch start slot of each store: `_sspfd_s[store]`. -/
  _sspfd_s : Nat → Nat
  /-- The calibration correction. -/
  sspfd_correction : Nat

/-- `SSPFDI(store)` (sspfd.h:145-148): `_sspfd_s[store] = getticks();`
where `now` is the value `getticks()` returns there. -/
def SSPFDI (st : SspfdState) (store now : Nat) : SspfdState :=
  { st with _sspfd_s := fun s => if s = store then now else st._sspfd_s s }

/-- `SSPFDO(store, entry)` (sspfd.h:151-154):
`sspfd_store[store][entry] = getticks() - _sspfd_s[store] - sspfd_correction;`
where `now` is the value `getticks()` returns there. -/
def SSPFDO (st : SspfdState) (store entry now : Nat) : SspfdState :=
  { st with
    sspfd_store := fun s e =>
      if s = store ∧ e = entry then
        ticks_sub (ticks_sub now (st._sspfd_s store)) st.sspfd_correction
      else st.sspfd_store s e }

/-- A state whose samples and scratch slots are all zero, with the given
correction. -/
def zeroState (correction : Nat) : SspfdState :=
  { sspfd_store := fun _ _ => 0, _sspfd_s := fun _ => 0, sspfd_correction := correction }

/-! ## `sspfd.h`: calls recorded in a trace -/

/-- The measured region of the four `case`s of the driver's `switch`
(sspfd_test.c:106, 123, 140, 158-159). -/
inductive Region where
  | nop
  | empty
  | pause
  | l1_load
  deriving DecidableEq, Repr

/-- The texts `SSPFD_PRINT` is called with in the driver. -/
inductive Msg where
  | initializing (num_stores num_ops : Nat)
  | testing_store (store : Nat)
  | measuring (r : Region)
  deriving DecidableEq, Repr

/-- One observable step of the driver or of `SSPFDPN`: a print, or a call
with its arguments. -/
inductive Event where
  | print (m : Msg)
  | call_store_init (num_stores num_entries id : Nat)
  | call_SSPFDI (store : Nat)
  | region (r : Region)
  | call_SSPFDO (store entry : Nat)
  | printf_sample (idx : Nat) (val : Int)
  | call_get_stats (store num_vals : Nat)
  | call_print_stats
  | call_store_term
  deriving DecidableEq, Repr

/-- The cast `(long int) x` of a `ticks` value. -/
def to_long (x : Nat) : Int :=
  if x % 2 ^ 64 < 2 ^ 63 then ((x % 2 ^ 64 : Nat) : Int) else ((x % 2 ^ 64 : Nat) : Int) - 2 ^ 64

/-- The `for (_i = 0; _i < p; _i++)` loop of `SSPFDPN` (sspfd.h:161-164), from
the current `_i`. `_i` and `p` are `uint32_t`; `_i < p` keeps `_i + 1` in range. -/
def SSPFDPN_loop (st : SspfdState) (store p _i : Nat) : List Event :=
  if _i < p then
    Event.printf_sample _i (to_long (st.sspfd_store store _i)) ::
      SSPFDPN_loop st store p (_i + 1)
  else []
termination_by p - _i

/-- `SSPFDPN(store, num_vals, num_print)` (sspfd.h:156-168):
`uint32_t p = num_print; if (p > num_vals) { p = num_vals; }`, the print loop,
then `sspfd_get_stats(store, num_vals, &ad); sspfd_print_stats(&ad);`. -/
def SSPFDPN (st : SspfdState) (store num_vals num_print : Nat) : List Event :=
  let p0 := num_print % 2 ^ 32
  let p := if p0 > num_vals then num_vals % 2 ^ 32 else p0
  SSPFDPN_loop st store p 0 ++
    [Event.call_get_stats store num_vals, Event.call_print_stats]

/-- The entry indices of the raw samples a trace prints, in order. -/
def printed_indices (tr : List Event) : List Nat :=
  tr.filterMap fun e =>
    match e with
    | Event.printf_sample idx _ => some idx
    | _ => none

/-! ## `sspfd_test.c`: option dispatch -/

/-- `DEFAULT_NUM_OPS` (sspfd_test.c:17). -/
def DEFAULT_NUM_OPS : Nat := 100000

/-- `DEFAULT_NUM_STORES` (sspfd_test.c:18). -/
def DEFAULT_NUM_STORES : Nat := 2

/-- What one call `getopt_long(argc, argv, "ho:s:", long_options, &i)` leaves
behind: its return value `c`, the index `i` it stored, and the value
`atoi(optarg)` would return for the argument it set. -/
structure GetoptResult where
  c : Int
  i : Nat
  atoi_optarg : Int
  deriving DecidableEq, Repr

/-- The field `val` of `long_options[i]` (sspfd_test.c:27-33). -/
def long_options_val (i : Nat) : Int :=
  match i with
  | 0 => ('h'.toNat : Int)
  | 1 => ('o'.toNat : Int)
  | 2 => ('s'.toNat : Int)
  | _ => 0

/-- The field `flag` of `long_options[i]`: `NULL` in every row. -/
def long_options_flag (_i : Nat) : Nat := 0

/-- Conversion of an `int` to `size_t`, as in `num_ops = atoi(optarg)`. -/
def to_size_t (n : Int) : Nat := (n % 2 ^ 64).toNat

/-- The value `switch (c)` dispatches on (sspfd_test.c:45-46):
`if (c == 0 && long_options[i].flag == 0) c = long_options[i].val;`. -/
def dispatch_code (r : GetoptResult) : Int :=
  if r.c = 0 ∧ long_options_flag r.i = 0 then long_options_val r.i else r.c

/-- How the option loop ends: `exit(code)`, or it breaks with the two sizes. -/
inductive OptOutcome where
  | exit (code : Nat)
  | parsed (num_ops num_stores : Nat)
  deriving DecidableEq, Repr

/-- The `while (1)` option loop of `main` (sspfd_test.c:37-79) over the
successive results of `getopt_long`; the end of the list is the return `-1`. -/
def option_loop : List GetoptResult → Nat → Nat → OptOutcome
  | [], num_ops, num_stores => OptOutcome.parsed num_ops num_stores
  | r :: rest, num_ops, num_stores =>
    if r.c = -1 then OptOutcome.parsed num_ops num_stores
    else if dispatch_code r = 0 then option_loop rest num_ops num_stores
    else if dispatch_code r = ('h'.toNat : Int) then OptOutcome.exit 0
    else if dispatch_code r = ('o'.toNat : Int) then
      option_loop rest (to_size_t r.atoi_optarg) num_stores
    else if dispatch_code r = ('s'.toNat : Int) then
      option_loop rest num_ops (to_size_t r.atoi_optarg)
    else if dispatch_code r = ('?'.toNat : Int) then OptOutcome.exit 0
    else OptOutcome.exit 1

/-! ## `sspfd_test.c`: the measurement loop -/

/-- The region measured for a store: the `case` the `switch (num_stores)`
selects (sspfd_test.c:96-173). -/
def region_of (store : Nat) : Region :=
  match store with
  | 0 => Region.nop
  | 1 => Region.empty
  | 2 => Region.pause
  | _ => Region.l1_load

/-- The loop `for (r = 0; r < num_ops; r++) { SSPFDI(num_stores); ...;
SSPFDO(num_stores, r); }` of one `case`, from the current `r`. In the
`default` case `tmp` is the `13` just stored in `*dummy`, so nothing is
printed inside the loop. -/
def capture_loop (store num_ops : Nat) (reg : Region) (r : Nat) : List Event :=
  if r < num_ops then
    Event.call_SSPFDI store :: Event.region reg :: Event.call_SSPFDO store r ::
      capture_loop store num_ops reg (r + 1)
  else []
termination_by num_ops - r

/-- One iteration of `while (num_stores-- > 0)` with the decremented value
`store`: the two prints, the capture loop of the selected `case`, then
`sspfd_get_stats(num_stores, num_ops, &stats); sspfd_print_stats(&stats);`. -/
def test_store (store num_ops : Nat) : List Event :=
  [Event.print (Msg.testing_store store), Event.print (Msg.measuring (region_of store))] ++
    capture_loop store num_ops (region_of store) 0 ++
    [Event.call_get_stats store num_ops, Event.call_print_stats]

/-- The loop `while (num_stores-- > 0) { ... }` (sspfd_test.c:92-175). -/
def store_loop : Nat → Nat → List Event
  | 0, _ => []
  | n + 1, num_ops => test_store n num_ops ++ store_loop n num_ops

/-- The assertions of `main`. -/
inductive Assertion where
  | num_stores_pos
  | num_ops_pos
  | dummy_not_null
  deriving DecidableEq, Repr

/-- How `main` ends, with the calls and prints made after the option loop. -/
inductive Outcome where
  | exit (code : Nat)
  | assert_failed (a : Assertion) (trace : List Event)
  | returned (code : Nat) (trace : List Event)
  deriving DecidableEq, Repr

/-- The part of `main` after the option loop (sspfd_test.c:81-180);
`dummy_ok` tells whether `malloc(sizeof(int))` returned a non-null pointer. -/
def main_run (num_ops num_stores : Nat) (dummy_ok : Bool) : Outcome :=
  if ¬ (num_stores > 0) then Outcome.assert_failed Assertion.num_stores_pos []
  else if ¬ (num_ops > 0) then Outcome.assert_failed Assertion.num_ops_pos []
  else if dummy_ok = false then
    Outcome.assert_failed Assertion.dummy_not_null
      [Event.print (Msg.initializing num_stores num_ops),
        Event.call_store_init num_stores num_ops 0]
  else
    Outcome.returned 0
      ([Event.print (Msg.initializing num_stores num_ops),
        Event.call_store_init num_stores num_ops 0] ++
        store_loop num_stores num_ops ++ [Event.call_store_term])

/-- The driver `main` (sspfd_test.c:24-181). -/
def main (opts : List GetoptResult) (dummy_ok : Bool) : Outcome :=
  match option_loop opts DEFAULT_NUM_OPS DEFAULT_NUM_STORES with
  | OptOutcome.exit code => Outcome.exit code
  | OptOutcome.parsed num_ops num_stores => main_run num_ops num_stores dummy_ok

/-- The calls and prints of a run after the option loop. -/
def Outcome.trace : Outcome → List Event
  | Outcome.exit _ => []
  | Outcome.assert_failed _ tr => tr
  | Outcome.returned _ tr => tr

/-- The `(store, num_vals)` arguments of the `sspfd_get_stats` calls of a
trace, in order. -/
def stats_calls (tr : List Event) : List (Nat × Nat) :=
  tr.filterMap fun e =>
    match e with
    | Event.call_get_stats s n => some (s, n)
    | _ => none

/-- The entry indices of the `SSPFDO` captures a trace makes on store `c`, in
order. -/
def capture_entries (c : Nat) (tr : List Event) : List Nat :=
  tr.filterMap fun e =>
    match e with
    | Event.call_SSPFDO s r => if s = c then some r else none
    | _ => none

/-- The stores of the `SSPFDI` captures of a trace, in order. -/
def begin_stores (tr : List Event) : List Nat :=
  tr.filterMap fun e =>
    match e with
    | Event.call_SSPFDI s => some s
    | _ => none

/-- Whether a capture or compute call respects the sizes of the store:
`store < num_stores`, `entry < capacity`, `0 < num_vals <= capacity`. -/
def call_in_bounds (num_stores capacity : Nat) : Event → Bool
  | Event.call_SSPFDI s => decide (s < num_stores)
  | Event.call_SSPFDO s r => decide (s < num_stores) && decide (r < capacity)
  | Event.call_get_stats s n =>
    decide (s < num_stores) && decide (0 < n) && decide (n ≤ capacity)
  | _ => true

/-- Whether the option loop goes on to the next `getopt_long` call after this
result: it is not the end marker `-1` and the `switch` takes `case 0`,
`case 'o'` or `case 's'`. -/
def continues (r : GetoptResult) : Bool :=
  decide (r.c ≠ -1) &&
    (decide (dispatch_code r = 0) || decide (dispatch_code r = ('o'.toNat : Int)) ||
      decide (dispatch_code r = ('s'.toNat : Int)))

/-- The size the command line asks for with the option dispatched as `code`:
the last value given, converted to `size_t`, or the default when the option
is absent. -/
def last_size (code : Int) (dflt : Nat) (opts : List GetoptResult) : Nat :=
  match (opts.filter fun r => decide (dispatch_code r = code)).getLast? with
  | some r => to_size_t r.atoi_optarg
  | none => dflt

/-! ## Arithmetic helpers -/

theorem ticks_sub_lt (a b : Nat) : ticks_sub a b < 2 ^ 64 :=
  Nat.mod_lt _ (by norm_num)

theorem ticks_sub_cast (a b : Nat) :
    ((ticks_sub a b : Nat) : Int) = ((a : Int) - (b : Int)) % 2 ^ 64 := by
  unfold ticks_sub
  omega

theorem ticks_sub_of_le (a b : Nat) (ha : a < 2 ^ 64) (hb : b ≤ a) :
    ticks_sub a b = a - b := by
  unfold ticks_sub
  omega

theorem ticks_sub_of_lt (a b : Nat) (hb : b < 2 ^ 64) (hab : a < b) :
    ticks_sub a b = 2 ^ 64 + a - b := by
  unfold ticks_sub
  omega

/-! ## Capture: value stored -/

/-- C1: after `SSPFDI(c)` at counter value `t0` and `SSPFDO(c, i)` at counter
value `t1`, the scratch slot of `c` held `t0` and the sample
`sspfd_store[c][i]` is `t1 - t0 - sspfd_correction` modulo `2 ^ 64`. -/
theorem SSPFDO_after_SSPFDI_value (st : SspfdState) (c i t0 t1 : Nat) :
    (SSPFDI st c t0)._sspfd_s c = t0 ∧
    (((SSPFDO (SSPFDI st c t0) c i t1).sspfd_store c i : Nat) : Int)
      = ((t1 : Int) - (t0 : Int) - (st.sspfd_correction : Int)) % 2 ^ 64 := by
  refine ⟨by simp [SSPFDI], ?_⟩
  simp only [SSPFDO, SSPFDI, and_self, if_true]
  rw [ticks_sub_cast, ticks_sub_cast]
  omega

/-- C2, as stated, fails: with start tick `0`, end tick `0` and correction `1`
the raw elapsed value `0` is below the correction, and the stored sample is
the wrapped value `2 ^ 64 - 1`, not `0`. -/
theorem SSPFDO_underflow_wraps :
    ticks_sub 0 0 < (zeroState 1).sspfd_correction ∧
    (SSPFDO (SSPFDI (zeroState 1) 0 0) 0 0 0).sspfd_store 0 0 = 18446744073709551615 ∧
    (SSPFDO (SSPFDI (zeroState 1) 0 0) 0 0 0).sspfd_store 0 0 ≠ 0 := by
  refine ⟨by decide, ?_, ?_⟩ <;> simp [SSPFDO, SSPFDI, zeroState, ticks_sub]

/-- C2, amended: the sample stored by `SSPFDO` is not clamped. With a
correction below `2 ^ 64`, when the raw elapsed value `now - start` (modulo
`2 ^ 64`) is smaller than the correction the stored sample is the wrapped
value `2 ^ 64 + raw - correction`, which is not zero; when the raw value is at
least the correction the stored sample is `raw - correction`. -/
theorem SSPFDO_value_cases (st : SspfdState) (c i t0 t1 : Nat)
    (hk : st.sspfd_correction < 2 ^ 64) :
    (ticks_sub t1 t0 < st.sspfd_correction →
      (SSPFDO (SSPFDI st c t0) c i t1).sspfd_store c i
          = 2 ^ 64 + ticks_sub t1 t0 - st.sspfd_correction ∧
        0 < (SSPFDO (SSPFDI st c t0) c i t1).sspfd_store c i) ∧
    (st.sspfd_correction ≤ ticks_sub t1 t0 →
      (SSPFDO (SSPFDI st c t0) c i t1).sspfd_store c i
          = ticks_sub t1 t0 - st.sspfd_correction) := by
  have hraw := ticks_sub_lt t1 t0
  have hv : (SSPFDO (SSPFDI st c t0) c i t1).sspfd_store c i
      = ticks_sub (ticks_sub t1 t0) st.sspfd_correction := by
    simp [SSPFDO, SSPFDI]
  rw [hv]
  refine ⟨fun h => ?_, fun h => ticks_sub_of_le _ _ hraw h⟩
  rw [ticks_sub_of_lt _ _ hk h]
  exact ⟨rfl, by omega⟩

/-- Witness of `SSPFDO_value_cases`: start tick `5`, end tick `3`, correction `1`. -/
theorem SSPFDO_value_cases_witness :
    (zeroState 1).sspfd_correction < 2 ^ 64 ∧
    ((ticks_sub 3 5 < (zeroState 1).sspfd_correction →
      (SSPFDO (SSPFDI (zeroState 1) 0 5) 0 0 3).sspfd_store 0 0
          = 2 ^ 64 + ticks_sub 3 5 - (zeroState 1).sspfd_correction ∧
        0 < (SSPFDO (SSPFDI (zeroState 1) 0 5) 0 0 3).sspfd_store 0 0) ∧
    ((zeroState 1).sspfd_correction ≤ ticks_sub 3 5 →
      (SSPFDO (SSPFDI (zeroState 1) 0 5) 0 0 3).sspfd_store 0 0
          = ticks_sub 3 5 - (zeroState 1).sspfd_correction)) :=
  ⟨by decide, SSPFDO_value_cases (zeroState 1) 0 0 5 3 (by decide)⟩

/-! ## Capture: frame -/

/-- C3: `SSPFDI(c)` leaves every sample, the correction and the scratch slot of
every other store unchanged; `SSPFDO(c, i)` leaves every scratch slot, the
correction and every sample other than `sspfd_store[c][i]` unchanged. -/
theorem capture_frame (st : SspfdState) (c i now : Nat) :
    ((SSPFDI st c now).sspfd_store = st.sspfd_store ∧
      (SSPFDI st c now).sspfd_correction = st.sspfd_correction ∧
      ∀ c2, c2 ≠ c → (SSPFDI st c now)._sspfd_s c2 = st._sspfd_s c2) ∧
    ((SSPFDO st c i now)._sspfd_s = st._sspfd_s ∧
      (SSPFDO st c i now).sspfd_correction = st.sspfd_correction ∧
      (∀ i2, i2 ≠ i → (SSPFDO st c i now).sspfd_store c i2 = st.sspfd_store c i2) ∧
      ∀ c2 i2, c2 ≠ c → (SSPFDO st c i now).sspfd_store c2 i2 = st.sspfd_store c2 i2) := by
  refine ⟨⟨rfl, rfl, fun c2 h => ?_⟩, rfl, rfl, fun i2 h => ?_, fun c2 i2 h => ?_⟩
  · simp [SSPFDI, h]
  · simp [SSPFDO, h]
  · simp [SSPFDO, h]

/-- Witness of `capture_frame`: store `1`, entry `2`, in a state whose cells
hold distinct values. -/
theorem capture_frame_witness :
    (SSPFDI ⟨fun s e => 10 * s + e, fun s => s + 7, 3⟩ 1 99)._sspfd_s 0 = 7 ∧
    (SSPFDO ⟨fun s e => 10 * s + e, fun s => s + 7, 3⟩ 1 2 99).sspfd_store 1 3 = 13 ∧
    (SSPFDO ⟨fun s e => 10 * s + e, fun s => s + 7, 3⟩ 1 2 99).sspfd_store 0 2 = 2 :=
  ⟨((capture_frame ⟨fun s e => 10 * s + e, fun s => s + 7, 3⟩ 1 2 99).1.2.2 0 (by decide)),
    ((capture_frame ⟨fun s e => 10 * s + e, fun s => s + 7, 3⟩ 1 2 99).2.2.2.1 3 (by decide)),
    ((capture_frame ⟨fun s e => 10 * s + e, fun s => s + 7, 3⟩ 1 2 99).2.2.2.2 0 2 (by decide))⟩

/-! ## `getticks` -/

theorem getticks_eq (lo hi : Nat) (hlo : lo < 2 ^ 32) (hhi : hi < 2 ^ 32) :
    getticks lo hi = hi * 2 ^ 32 + lo := by
  unfold getticks
  have h1 : hi <<< 32 < 2 ^ 64 := by
    rw [Nat.shiftLeft_eq]
    omega
  rw [Nat.mod_eq_of_lt h1, Nat.shiftLeft_eq, Nat.lor_comm, Nat.mul_comm hi,
    ← Nat.mul_add_lt_is_or hlo hi]

/-- C10: for 32-bit halves `lo` and `hi`, the x86_64 `getticks` returns
`hi * 2 ^ 32 + lo`: a 64-bit value whose low 32 bits are `lo` and whose high 32
bits are `hi`, so that distinct pairs of halves give distinct results. -/
theorem getticks_halves (lo hi : Nat) (hlo : lo < 2 ^ 32) (hhi : hi < 2 ^ 32) :
    getticks lo hi = hi * 2 ^ 32 + lo ∧
    getticks lo hi < 2 ^ 64 ∧
    getticks lo hi % 2 ^ 32 = lo ∧
    getticks lo hi / 2 ^ 32 = hi ∧
    ∀ lo2 hi2, lo2 < 2 ^ 32 → hi2 < 2 ^ 32 →
      getticks lo2 hi2 = getticks lo hi → lo2 = lo ∧ hi2 = hi := by
  rw [getticks_eq lo hi hlo hhi]
  refine ⟨rfl, by omega, by omega, by omega, fun lo2 hi2 h1 h2 h => ?_⟩
  rw [getticks_eq lo2 hi2 h1 h2] at h
  omega

/-- Witness of `getticks_halves`: `lo = 0xFFFFFFFF`, `hi = 1`. -/
theorem getticks_halves_witness :
    4294967295 < 2 ^ 32 ∧ 1 < 2 ^ 32 ∧
    (getticks 4294967295 1 = 1 * 2 ^ 32 + 4294967295 ∧
    getticks 4294967295 1 < 2 ^ 64 ∧
    getticks 4294967295 1 % 2 ^ 32 = 4294967295 ∧
    getticks 4294967295 1 / 2 ^ 32 = 1 ∧
    ∀ lo2 hi2, lo2 < 2 ^ 32 → hi2 < 2 ^ 32 →
      getticks lo2 hi2 = getticks 4294967295 1 → lo2 = 4294967295 ∧ hi2 = 1) :=
  ⟨by decide, by decide, getticks_halves 4294967295 1 (by decide) (by decide)⟩

/-! ## The measurement loop of the driver -/

theorem capture_loop_eq (c num_ops : Nat) (reg : Region) :
    ∀ (k r : Nat), num_ops - r = k →
      capture_loop c num_ops reg r =
        (List.range' r k).flatMap fun e =>
          [Event.call_SSPFDI c, Event.region reg, Event.call_SSPFDO c e] := by
  intro k
  induction k with
  | zero =>
    intro r h
    rw [capture_loop, if_neg (by omega)]
    rfl
  | succ k ih =>
    intro r h
    rw [capture_loop, if_pos (by omega), ih (r + 1) (by omega), List.range'_succ]
    rfl

theorem capture_loop_zero (c num_ops : Nat) (reg : Region) :
    capture_loop c num_ops reg 0 =
      (List.range num_ops).flatMap fun e =>
        [Event.call_SSPFDI c, Event.region reg, Event.call_SSPFDO c e] := by
  rw [capture_loop_eq c num_ops reg num_ops 0 rfl, List.range_eq_range']

theorem store_loop_eq (num_ops : Nat) (n : Nat) :
    store_loop n num_ops = (List.range n).reverse.flatMap fun c => test_store c num_ops := by
  induction n with
  | zero => rfl
  | succ n ih =>
    rw [store_loop, ih, List.range_succ, List.reverse_append]
    rfl

theorem stats_calls_capture (c : Nat) (reg : Region) (l : List Nat) :
    stats_calls (l.flatMap fun e =>
      [Event.call_SSPFDI c, Event.region reg, Event.call_SSPFDO c e]) = [] := by
  induction l with
  | nil => rfl
  | cons a l ih =>
    rw [List.flatMap_cons, stats_calls, List.filterMap_append]
    rw [stats_calls] at ih
    rw [ih]
    rfl

theorem capture_entries_capture (c2 c : Nat) (reg : Region) (l : List Nat) :
    capture_entries c2 (l.flatMap fun e =>
      [Event.call_SSPFDI c, Event.region reg, Event.call_SSPFDO c e])
      = if c = c2 then l else [] := by
  induction l with
  | nil => simp [capture_entries]
  | cons a l ih =>
    rw [List.flatMap_cons, capture_entries, List.filterMap_append]
    rw [capture_entries] at ih
    rw [ih]
    by_cases h : c = c2 <;> simp [h]

theorem begin_stores_capture (c : Nat) (reg : Region) (l : List Nat) :
    begin_stores (l.flatMap fun e =>
      [Event.call_SSPFDI c, Event.region reg, Event.call_SSPFDO c e])
      = List.replicate l.length c := by
  induction l with
  | nil => rfl
  | cons a l ih =>
    rw [List.flatMap_cons, begin_stores, List.filterMap_append]
    rw [begin_stores] at ih
    rw [ih]
    rfl

theorem stats_calls_test_store (c num_ops : Nat) :
    stats_calls (test_store c num_ops) = [(c, num_ops)] := by
  have h := stats_calls_capture c (region_of c) (List.range num_ops)
  rw [stats_calls] at h
  rw [test_store, capture_loop_zero, stats_calls, List.filterMap_append,
    List.filterMap_append, h]
  rfl

theorem capture_entries_test_store (c2 c num_ops : Nat) :
    capture_entries c2 (test_store c num_ops) = if c = c2 then List.range num_ops else [] := by
  have h := capture_entries_capture c2 c (region_of c) (List.range num_ops)
  rw [capture_entries] at h
  rw [test_store, capture_loop_zero, capture_entries, List.filterMap_append,
    List.filterMap_append, h]
  simp

theorem begin_stores_test_store (c num_ops : Nat) :
    begin_stores (test_store c num_ops) = List.replicate num_ops c := by
  have h := begin_stores_capture c (region_of c) (List.range num_ops)
  rw [begin_stores] at h
  rw [test_store, capture_loop_zero, begin_stores, List.filterMap_append,
    List.filterMap_append, h]
  simp

theorem test_store_in_bounds (num_stores num_ops c : Nat) (hc : c < num_stores)
    (ho : 0 < num_ops) :
    ∀ e ∈ test_store c num_ops, call_in_bounds num_stores num_ops e = true := by
  intro e he
  rw [test_store, capture_loop_zero] at he
  simp only [List.mem_append, List.mem_cons, List.mem_singleton, List.mem_flatMap,
    List.mem_range, List.not_mem_nil, or_false] at he
  rcases he with ((h | h) | ⟨r, hr, h | h | h⟩) | h | h <;> subst h <;>
    first
    | simp [call_in_bounds, hc, ho, hr]
    | simp [call_in_bounds, hc, ho]

theorem stats_calls_store_loop (num_ops : Nat) (n : Nat) :
    stats_calls (store_loop n num_ops) = (List.range n).reverse.map fun c => (c, num_ops) := by
  induction n with
  | zero => rfl
  | succ n ih =>
    have h := stats_calls_test_store n num_ops
    rw [stats_calls] at h ih
    rw [store_loop, stats_calls, List.filterMap_append, h, ih, List.range_succ,
      List.reverse_append]
    rfl

theorem capture_entries_store_loop (num_ops c : Nat) (n : Nat) :
    capture_entries c (store_loop n num_ops) = if c < n then List.range num_ops else [] := by
  induction n with
  | zero => rfl
  | succ n ih =>
    have h := capture_entries_test_store c n num_ops
    rw [capture_entries] at h ih
    rw [store_loop, capture_entries, List.filterMap_append, h, ih]
    by_cases h1 : n = c
    · subst h1
      simp
    · by_cases h2 : c < n
      · simp [h1, h2, Nat.lt_succ_of_lt h2]
      · have h3 : ¬ c < n + 1 := by omega
        simp [h1, h2, h3]

theorem begin_stores_store_loop (num_ops : Nat) (n : Nat) :
    begin_stores (store_loop n num_ops)
      = (List.range n).reverse.flatMap fun c => List.replicate num_ops c := by
  induction n with
  | zero => rfl
  | succ n ih =>
    have h := begin_stores_test_store n num_ops
    rw [begin_stores] at h ih
    rw [store_loop, begin_stores, List.filterMap_append, h, ih, List.range_succ,
      List.reverse_append]
    rfl

theorem store_loop_in_bounds (num_ops : Nat) (ho : 0 < num_ops) (n num_stores : Nat)
    (hn : n ≤ num_stores) :
    ∀ e ∈ store_loop n num_ops, call_in_bounds num_stores num_ops e = true := by
  induction n with
  | zero =>
    intro e he
    simp [store_loop] at he
  | succ n ih =>
    intro e he
    rw [store_loop, List.mem_append] at he
    rcases he with he | he
    · exact test_store_in_bounds num_stores num_ops n (by omega) ho e he
    · exact ih (by omega) e he

/-- C8: for `num_stores > 0` and `num_ops > 0`, the driver creates the store
with `sspfd_store_init(num_stores, num_ops, 0)` and then runs the loop
`while (num_stores-- > 0)`, which visits the stores `num_stores - 1, ..., 0`,
each once; for each store `c` it makes `num_ops` captures
`SSPFDI(c); ...; SSPFDO(c, r)` with `r = 0, 1, ..., num_ops - 1` in this order
and then calls `sspfd_get_stats(c, num_ops, ...)` once; every capture and
compute call has `store < num_stores`, `entry < num_ops` and
`0 < num_vals <= num_ops`. -/
theorem store_loop_calls (num_stores num_ops : Nat) (hs : 0 < num_stores)
    (ho : 0 < num_ops) :
    main_run num_ops num_stores true
      = Outcome.returned 0
          ([Event.print (Msg.initializing num_stores num_ops),
            Event.call_store_init num_stores num_ops 0] ++
            store_loop num_stores num_ops ++ [Event.call_store_term]) ∧
    store_loop num_stores num_ops
      = ((List.range num_stores).reverse.flatMap fun c =>
          [Event.print (Msg.testing_store c), Event.print (Msg.measuring (region_of c))] ++
            ((List.range num_ops).flatMap fun r =>
              [Event.call_SSPFDI c, Event.region (region_of c), Event.call_SSPFDO c r]) ++
            [Event.call_get_stats c num_ops, Event.call_print_stats]) ∧
    stats_calls (store_loop num_stores num_ops)
      = ((List.range num_stores).reverse.map fun c => (c, num_ops)) ∧
    (∀ c, c < num_stores →
      capture_entries c (store_loop num_stores num_ops) = List.range num_ops) ∧
    (∀ c, num_stores ≤ c → capture_entries c (store_loop num_stores num_ops) = []) ∧
    begin_stores (store_loop num_stores num_ops)
      = ((List.range num_stores).reverse.flatMap fun c => List.replicate num_ops c) ∧
    ∀ e ∈ store_loop num_stores num_ops, call_in_bounds num_stores num_ops e = true := by
  refine ⟨?_, ?_, stats_calls_store_loop num_ops num_stores, fun c hc => ?_, fun c hc => ?_,
    begin_stores_store_loop num_ops num_stores,
    store_loop_in_bounds num_ops ho num_stores num_stores (Nat.le_refl _)⟩
  · rw [main_run, if_neg (by omega), if_neg (by omega), if_neg (by decide)]
  · rw [store_loop_eq]
    congr 1
    funext c
    rw [test_store, capture_loop_zero]
  · rw [capture_entries_store_loop, if_pos hc]
  · rw [capture_entries_store_loop, if_neg (by omega)]

/-- Witness of `store_loop_calls`: two stores of three entries. -/
theorem store_loop_calls_witness :
    0 < 2 ∧ 0 < 3 ∧
    stats_calls (store_loop 2 3) = [(1, 3), (0, 3)] ∧
    capture_entries 1 (store_loop 2 3) = [0, 1, 2] ∧
    begin_stores (store_loop 2 3) = [1, 1, 1, 0, 0, 0] :=
  ⟨by decide, by decide, (store_loop_calls 2 3 (by decide) (by decide)).2.2.1,
    (store_loop_calls 2 3 (by decide) (by decide)).2.2.2.1 1 (by decide),
    (store_loop_calls 2 3 (by decide) (by decide)).2.2.2.2.2.1⟩

/-! ## `SSPFDPN` -/

theorem SSPFDPN_loop_eq (st : SspfdState) (store p : Nat) :
    ∀ (k i : Nat), p - i = k →
      SSPFDPN_loop st store p i =
        (List.range' i k).map fun j =>
          Event.printf_sample j (to_long (st.sspfd_store store j)) := by
  intro k
  induction k with
  | zero =>
    intro i h
    rw [SSPFDPN_loop, if_neg (by omega)]
    rfl
  | succ k ih =>
    intro i h
    rw [SSPFDPN_loop, if_pos (by omega), ih (i + 1) (by omega), List.range'_succ]
    rfl

theorem SSPFDPN_eq (st : SspfdState) (store num_vals num_print : Nat) :
    SSPFDPN st store num_vals num_print
      = ((List.range (min (num_print % 2 ^ 32) num_vals)).map fun j =>
          Event.printf_sample j (to_long (st.sspfd_store store j))) ++
        [Event.call_get_stats store num_vals, Event.call_print_stats] := by
  have hp : (if num_print % 2 ^ 32 > num_vals then num_vals % 2 ^ 32 else num_print % 2 ^ 32)
      = min (num_print % 2 ^ 32) num_vals := by
    split <;> omega
  simp only [SSPFDPN]
  rw [hp, SSPFDPN_loop_eq st store _ _ 0 rfl, List.range_eq_range', Nat.sub_zero]

theorem printed_indices_SSPFDPN (st : SspfdState) (store num_vals num_print : Nat) :
    printed_indices (SSPFDPN st store num_vals num_print)
      = List.range (min (num_print % 2 ^ 32) num_vals) := by
  have hf : ((fun e : Event =>
      match e with
      | Event.printf_sample idx _ => some idx
      | _ => none) ∘
      fun j => Event.printf_sample j (to_long (st.sspfd_store store j))) = some := by
    funext j
    rfl
  rw [SSPFDPN_eq, printed_indices, List.filterMap_append, List.filterMap_map, hf,
    List.filterMap_some]
  simp

/-- C9, as stated, fails: with `num_vals = 5` and `num_print = 2 ^ 32` (a
`size_t` value) `SSPFDPN` prints no raw sample, where
`min(num_print, num_vals)` is `5`. -/
theorem SSPFDPN_truncates_num_print :
    printed_indices (SSPFDPN (zeroState 0) 0 5 4294967296) = [] ∧
    List.range (min 4294967296 5) = [0, 1, 2, 3, 4] ∧
    printed_indices (SSPFDPN (zeroState 0) 0 5 4294967296)
      ≠ List.range (min 4294967296 5) := by
  rw [printed_indices_SSPFDPN]
  decide

/-- C9, amended: `SSPFDPN(store, num_vals, num_print)` prints exactly
`min(num_print mod 2 ^ 32, num_vals)` raw samples, the entries
`0, 1, ..., min(num_print mod 2 ^ 32, num_vals) - 1` of the store in increasing
index order, each once, and then calls `sspfd_get_stats(store, num_vals, ...)`
and `sspfd_print_stats`; the number printed is `min(num_print, num_vals)`
whenever `num_print < 2 ^ 32`. -/
theorem SSPFDPN_prints (st : SspfdState) (store num_vals num_print : Nat) :
    SSPFDPN st store num_vals num_print
      = ((List.range (min (num_print % 2 ^ 32) num_vals)).map fun j =>
          Event.printf_sample j (to_long (st.sspfd_store store j))) ++
        [Event.call_get_stats store num_vals, Event.call_print_stats] ∧
    printed_indices (SSPFDPN st store num_vals num_print)
      = List.range (min (num_print % 2 ^ 32) num_vals) ∧
    stats_calls (SSPFDPN st store num_vals num_print) = [(store, num_vals)] ∧
    (num_print < 2 ^ 32 →
      printed_indices (SSPFDPN st store num_vals num_print)
        = List.range (min num_print num_vals)) := by
  refine ⟨SSPFDPN_eq st store num_vals num_print,
    printed_indices_SSPFDPN st store num_vals num_print, ?_, fun h => ?_⟩
  · rw [SSPFDPN_eq, stats_calls, List.filterMap_append, List.filterMap_map]
    simp
  · rw [printed_indices_SSPFDPN, Nat.mod_eq_of_lt h]

/-- Witness of `SSPFDPN_prints`: three of five samples printed. -/
theorem SSPFDPN_prints_witness :
    (3 : Nat) < 2 ^ 32 ∧
    printed_indices (SSPFDPN (zeroState 0) 0 5 3) = List.range (min 3 5) :=
  ⟨by decide, (SSPFDPN_prints (zeroState 0) 0 5 3).2.2.2 (by decide)⟩

/-! ## The option loop of the driver -/

theorem last_size_cons_ne (code : Int) (dflt : Nat) (r : GetoptResult)
    (rest : List GetoptResult) (h : dispatch_code r ≠ code) :
    last_size code dflt (r :: rest) = last_size code dflt rest := by
  simp [last_size, List.filter_cons, h]

theorem last_size_cons_eq (code : Int) (dflt : Nat) (r : GetoptResult)
    (rest : List GetoptResult) (h : dispatch_code r = code) :
    last_size code dflt (r :: rest) = last_size code (to_size_t r.atoi_optarg) rest := by
  simp only [last_size, List.filter_cons, h, decide_True, if_true, List.getLast?_cons]
  cases (rest.filter fun r => decide (dispatch_code r = code)).getLast? <;> rfl

theorem option_loop_append (pre : List GetoptResult) (l : List GetoptResult) :
    ∀ (num_ops num_stores : Nat), (∀ r ∈ pre, continues r = true) →
      option_loop (pre ++ l) num_ops num_stores =
        option_loop l (last_size ('o'.toNat : Int) num_ops pre)
          (last_size ('s'.toNat : Int) num_stores pre) := by
  induction pre with
  | nil =>
    intro a b _
    rfl
  | cons r rest ih =>
    intro a b h
    have hr := h r (List.mem_cons_self _ _)
    have hrest : ∀ x ∈ rest, continues x = true := fun x hx => h x (List.mem_cons_of_mem _ hx)
    simp only [continues, Bool.and_eq_true, Bool.or_eq_true, decide_eq_true_eq] at hr
    obtain ⟨hc, hd⟩ := hr
    rw [List.cons_append, option_loop, if_neg hc]
    rcases hd with (hd | hd) | hd
    · rw [if_pos hd, ih a b hrest, last_size_cons_ne _ _ _ _ (by rw [hd]; decide),
        last_size_cons_ne _ _ _ _ (by rw [hd]; decide)]
    · rw [if_neg (by rw [hd]; decide), if_neg (by rw [hd]; decide), if_pos hd,
        ih _ b hrest, last_size_cons_eq _ _ _ _ hd,
        last_size_cons_ne _ _ _ _ (by rw [hd]; decide)]
    · rw [if_neg (by rw [hd]; decide), if_neg (by rw [hd]; decide),
        if_neg (by rw [hd]; decide), if_pos hd,
        ih a _ hrest, last_size_cons_eq _ _ _ _ hd,
        last_size_cons_ne _ _ _ _ (by rw [hd]; decide)]

theorem option_loop_exit_one (opts : List GetoptResult) :
    ∀ (num_ops num_stores : Nat), option_loop opts num_ops num_stores = OptOutcome.exit 1 →
      ∃ r ∈ opts, r.c ≠ -1 ∧ dispatch_code r ≠ 0 ∧ dispatch_code r ≠ ('h'.toNat : Int) ∧
        dispatch_code r ≠ ('o'.toNat : Int) ∧ dispatch_code r ≠ ('s'.toNat : Int) ∧
        dispatch_code r ≠ ('?'.toNat : Int) := by
  induction opts with
  | nil =>
    intro a b h
    simp [option_loop] at h
  | cons r rest ih =>
    intro a b h
    rw [option_loop] at h
    split at h
    · simp at h
    · rename_i hc
      split at h
      · obtain ⟨x, hx, hp⟩ := ih _ _ h
        exact ⟨x, List.mem_cons_of_mem _ hx, hp⟩
      · rename_i h0
        split at h
        · simp at h
        · rename_i hh
          split at h
          · obtain ⟨x, hx, hp⟩ := ih _ _ h
            exact ⟨x, List.mem_cons_of_mem _ hx, hp⟩
          · rename_i ho
            split at h
            · obtain ⟨x, hx, hp⟩ := ih _ _ h
              exact ⟨x, List.mem_cons_of_mem _ hx, hp⟩
            · rename_i hs
              split at h
              · simp at h
              · rename_i hq
                exact ⟨r, List.mem_cons_self _ _, hc, h0, hh, ho, hs, hq⟩

theorem main_run_code (num_ops num_stores : Nat) (dummy_ok : Bool) (code : Nat)
    (tr : List Event) (h : main_run num_ops num_stores dummy_ok = Outcome.returned code tr) :
    code = 0 := by
  unfold main_run at h
  split at h
  · simp at h
  · split at h
    · simp at h
    · split at h
      · simp at h
      · injection h with h1 _
        exact h1.symm

theorem main_returns_zero (opts : List GetoptResult) (dummy_ok : Bool) (code : Nat)
    (tr : List Event) (h : main opts dummy_ok = Outcome.returned code tr) : code = 0 := by
  unfold main at h
  split at h
  · simp at h
  · exact main_run_code _ _ _ _ _ h

/-- C7, as stated, fails: when `getopt_long` reports an invalid option (it
returns `'?'`) the driver exits with code `0`, not `1`. -/
theorem main_invalid_option_exits_zero :
    main [⟨('?'.toNat : Int), 0, 0⟩] true = Outcome.exit 0 ∧
    main [⟨('?'.toNat : Int), 0, 0⟩] true ≠ Outcome.exit 1 := by
  decide

/-- C7, amended: after any number of `-o`/`-s` options, the driver exits with
code `0` for the help option and also exits with code `0` when `getopt_long`
reports an invalid option (return value `'?'`); it exits with code `1` exactly
for a return value other than `-1`, `0`, `'h'`, `'o'`, `'s'` and `'?'`; and a
run that reaches the end of `main` returns `0`. -/
theorem main_exit_codes (pre rest : List GetoptResult) (r : GetoptResult) (dummy_ok : Bool)
    (hpre : ∀ x ∈ pre, continues x = true) (hr : r.c ≠ -1) :
    (dispatch_code r = ('h'.toNat : Int) → main (pre ++ r :: rest) dummy_ok = Outcome.exit 0) ∧
    (dispatch_code r = ('?'.toNat : Int) → main (pre ++ r :: rest) dummy_ok = Outcome.exit 0) ∧
    (dispatch_code r ≠ 0 → dispatch_code r ≠ ('h'.toNat : Int) →
      dispatch_code r ≠ ('o'.toNat : Int) → dispatch_code r ≠ ('s'.toNat : Int) →
      dispatch_code r ≠ ('?'.toNat : Int) → main (pre ++ r :: rest) dummy_ok = Outcome.exit 1) ∧
    (∀ opts, main opts dummy_ok = Outcome.exit 1 →
      ∃ x ∈ opts, x.c ≠ -1 ∧ dispatch_code x ≠ 0 ∧ dispatch_code x ≠ ('h'.toNat : Int) ∧
        dispatch_code x ≠ ('o'.toNat : Int) ∧ dispatch_code x ≠ ('s'.toNat : Int) ∧
        dispatch_code x ≠ ('?'.toNat : Int)) ∧
    (∀ opts code tr, main opts dummy_ok = Outcome.returned code tr → code = 0) := by
  refine ⟨fun h => ?_, fun h => ?_, fun h0 hh ho hs hq => ?_, fun opts h => ?_,
    fun opts code tr h => main_returns_zero opts dummy_ok code tr h⟩
  · rw [main, option_loop_append pre _ _ _ hpre, option_loop, if_neg hr,
      if_neg (by rw [h]; decide), if_pos h]
  · rw [main, option_loop_append pre _ _ _ hpre, option_loop, if_neg hr,
      if_neg (by rw [h]; decide), if_neg (by rw [h]; decide), if_neg (by rw [h]; decide),
      if_neg (by rw [h]; decide), if_pos h]
  · rw [main, option_loop_append pre _ _ _ hpre, option_loop, if_neg hr,
      if_neg h0, if_neg hh, if_neg ho, if_neg hs, if_neg hq]
  · unfold main at h
    split at h
    · rename_i code hcode
      injection h with h1
      subst h1
      exact option_loop_exit_one opts _ _ hcode
    · rename_i a b hab
      unfold main_run at h
      split at h
      · simp at h
      · split at h
        · simp at h
        · split at h <;> simp at h

/-- Witness of `main_exit_codes`: `-o 5` followed by an invalid option. -/
theorem main_exit_codes_witness :
    (∀ x ∈ [(⟨('o'.toNat : Int), 0, 5⟩ : GetoptResult)], continues x = true) ∧
    (⟨('?'.toNat : Int), 0, 0⟩ : GetoptResult).c ≠ -1 ∧
    main ([⟨('o'.toNat : Int), 0, 5⟩] ++ ⟨('?'.toNat : Int), 0, 0⟩ :: []) true
      = Outcome.exit 0 :=
  ⟨by decide, by decide,
    (main_exit_codes [⟨('o'.toNat : Int), 0, 5⟩] [] ⟨('?'.toNat : Int), 0, 0⟩ true
      (by decide) (by decide)).2.1 (by decide)⟩

/-! ## The size checks of the driver -/

end Sspfd
